import Mathlib

/-!
gardenlogin: configuration resolution of `cmd/root.go`.

Shallow embedding of `initConfig` (src/cmd/root.go, lines 57-109) together with
the parts of the libraries it calls (strcase, go-homedir, viper, pflag, klog)
that decide its behaviour.

* The process environment, the home directory, path handling and the read of
  the config file are the fields of `OS`.
* The flags of `getClientCertificateCmd` are an input: a list of `pflag.Flag` in
  the order `VisitAll` visits them, each with the `Set` method of its value.
* `cobra.CheckErr` on an error ends the process: `initConfig` returns
  `Except.error`.
* The log is the list of lines written through klog, with their severity.
-/

set_option autoImplicit false

namespace cmd

/-! ## Constants (root.go, lines 23-30) -/

def envPrefix : String := "GL"

def envGardenHomeDir : String := envPrefix ++ "_HOME"

def envConfigName : String := envPrefix ++ "_CONFIG_NAME"

def gardenHomeFolder : String := ".garden"

def configName : String := "garden-login"

/-! ## Go `strings` helpers

Every string these are applied to in `initConfig` is ASCII (a Lookup Key is
made of ASCII letters and digits only), where the ASCII tables of `Char.toLower`
and `Char.toUpper` agree with Go. -/

namespace strings

/-- Go `unicode.IsSpace`, the set trimmed by `strings.TrimSpace`. -/
def isSpace (c : Char) : Bool :=
  let n := c.toNat
  (9 ≤ n && n ≤ 13) || n = 32 || n = 0x85 || n = 0xA0 || n = 0x1680 ||
  (0x2000 ≤ n && n ≤ 0x200A) || n = 0x2028 || n = 0x2029 || n = 0x202F ||
  n = 0x205F || n = 0x3000

/-- Go `strings.TrimSpace` on the characters of a string. -/
def TrimSpace (l : List Char) : List Char :=
  ((l.dropWhile isSpace).reverse.dropWhile isSpace).reverse

/-- Go `strings.ToLower`. -/
def ToLower (s : String) : String := String.mk (s.data.map Char.toLower)

/-- Go `strings.ToUpper`. -/
def ToUpper (s : String) : String := String.mk (s.data.map Char.toUpper)

/-- Go `strings.Contains(s, "-")`, the only use in `initConfig`. -/
def ContainsHyphen (s : String) : Bool := s.data.contains '-'

end strings

/-! ## `github.com/iancoleman/strcase` -/

namespace strcase

def isCap (v : Char) : Bool := decide ('A' ≤ v) && decide (v ≤ 'Z')

def isLow (v : Char) : Bool := decide ('a' ≤ v) && decide (v ≤ 'z')

def isNum (v : Char) : Bool := decide ('0' ≤ v) && decide (v ≤ '9')

/-- The characters strcase treats as word separators. -/
def isSep (v : Char) : Bool := v == '_' || v == ' ' || v == '-' || v == '.'

/-- The loop of `toCamelInitCase`: `capNext` is the loop variable of that name,
`first` says whether the index is 0. Only letters and digits are written. -/
def camelLoop : Bool → Bool → List Char → List Char
  | _, _, [] => []
  | capNext, first, v :: rest =>
    let vIsCap := isCap v
    let vIsLow := isLow v
    let w :=
      if capNext then (if vIsLow then v.toUpper else v)
      else if first then (if vIsCap then v.toLower else v)
      else v
    if vIsCap || vIsLow then w :: camelLoop false false rest
    else if isNum v then w :: camelLoop true false rest
    else camelLoop (isSep v) false rest

/-- The acronym table of strcase (`uppercaseAcronym`), consulted on the whole
trimmed input. -/
def uppercaseAcronym (s : List Char) : List Char :=
  if s = ['I', 'D'] then ['i', 'd'] else s

/-- `toCamelInitCase(s, initCase)`. Releases of strcase differ in the case they
give some letters; every one writes the letters and digits of the input and
nothing else, and viper lower-cases the key. -/
def toCamelInitCase (s : List Char) (initCase : Bool) : List Char :=
  let t := strings.TrimSpace s
  if t = [] then t else camelLoop initCase true (uppercaseAcronym t)

/-- `strcase.ToLowerCamel`. -/
def ToLowerCamel (s : String) : String := String.mk (toCamelInitCase s.data false)

/-- The loop of `ToScreamingDelimited` with an empty `ignore` set: `prev` is
the byte before the current one in the trimmed input (`none` at index 0). -/
def delimitedLoop (delimiter : Char) (screaming : Bool) : Option Char → List Char → List Char
  | _, [] => []
  | prev, c :: rest =>
    let vIsCap := isCap c
    let vIsLow := isLow c
    let v := if vIsLow && screaming then c.toUpper
             else if vIsCap && !screaming then c.toLower else c
    let plain := (if isSep v then delimiter else v) :: delimitedLoop delimiter screaming (some c) rest
    match rest with
    | [] => plain
    | next :: _ =>
      let vIsNum := isNum v
      let nextIsCap := isCap next
      let nextIsLow := isLow next
      let nextIsNum := isNum next
      if (vIsCap && (nextIsLow || nextIsNum)) || (vIsLow && (nextIsCap || nextIsNum))
          || (vIsNum && (nextIsCap || nextIsLow)) then
        let prevIsCap := match prev with
          | some p => isCap p
          | none => false
        (if vIsCap && nextIsLow && prevIsCap then [delimiter] else [])
          ++ v :: (if vIsLow || vIsNum || nextIsNum then [delimiter] else [])
          ++ delimitedLoop delimiter screaming (some c) rest
      else plain

/-- `strcase.ToScreamingDelimited(s, delimiter, "", screaming)`. -/
def ToScreamingDelimited (s : List Char) (delimiter : Char) (screaming : Bool) : List Char :=
  delimitedLoop delimiter screaming none (strings.TrimSpace s)

/-- `strcase.ToScreamingSnake`. -/
def ToScreamingSnake (s : String) : String :=
  String.mk (ToScreamingDelimited s.data '_' true)

end strcase

/-! ## `k8s.io/klog/v2` -/

namespace klog

/-- Severity of a klog line. -/
inductive Severity where
  | info
  | warning
  | error
  | fatal
  deriving DecidableEq, Repr

/-- One emitted log line. -/
structure Entry where
  severity : Severity
  msg : String
  deriving DecidableEq, Repr

/-- `klog.Errorf`, with the message already formatted. -/
def Errorf (log : List Entry) (msg : String) : List Entry :=
  log ++ [Entry.mk Severity.error msg]

/-- `klog.Warningf`, with the message already formatted. -/
def Warningf (log : List Entry) (msg : String) : List Entry :=
  log ++ [Entry.mk Severity.warning msg]

end klog

/-! ## Values held by viper -/

namespace viper

/-- A value held by viper (`interface\x7b\x7d`): a decoded scalar of the config
file or the string of an environment variable; `other` is any other value,
carried with its `%v` rendering. -/
inductive Value where
  | str (s : String)
  | int (i : Int)
  | bool (b : Bool)
  | other (rendering : String)
  deriving DecidableEq, Repr

/-- `fmt.Sprintf("%v", val)` for the result of `viper.Get` (`none` is nil). -/
def Sprintf_v : Option Value → String
  | none => "<nil>"
  | some (Value.str s) => s
  | some (Value.int i) => toString i
  | some (Value.bool b) => if b then "true" else "false"
  | some (Value.other r) => r

end viper

/-! ## The process environment and the file system -/

/-- What `initConfig` reads from outside the program.
* `LookupEnv` is `os.LookupEnv`;
* `homeDir` is the result of `homedir.Dir()` (cached by the library, so every
  call in one run returns the same);
* `Join` is `filepath.Join` on two elements, which returns the empty string
  only when every element is empty (`Join_nonempty`);
* `absPathify` is viper's path normalisation in `AddConfigPath`;
* `readConfig configFile configPaths configName` is what viper's
  `getConfigFile`, file read and decoding produce for that location: the
  decoded top-level map, keyed by the lower-cased key, where `none` stands for a
  missing key or a nil value, or the error. -/
structure OS where
  LookupEnv : String → Option String
  homeDir : Except String String
  Join : String → String → String
  Join_nonempty : ∀ a b : String, b ≠ "" → Join a b ≠ ""
  absPathify : String → String
  readConfig : String → List String → String → Except String (String → Option viper.Value)

/-- Go `os.Getenv`. -/
def OS.Getenv (os : OS) (key : String) : String :=
  (os.LookupEnv key).getD ""

/-! ## `github.com/mitchellh/go-homedir` -/

namespace homedir

/-- `homedir.Dir`. -/
def Dir (os : OS) : Except String String := os.homeDir

/-- `homedir.Expand`: a path not starting with `~` is returned as is, `~user`
is an error, `~` and `~/...` are joined to the home directory. -/
def Expand (os : OS) (path : String) : Except String String :=
  match path.data with
  | [] => Except.ok path
  | c :: rest =>
    if c ≠ '~' then Except.ok path
    else
      let userSpecific := match rest with
        | d :: _ => d ≠ '/' && d ≠ '\\'
        | [] => false
      if userSpecific then Except.error "cannot expand user-specific home dir"
      else
        match Dir os with
        | Except.error err => Except.error err
        | Except.ok dir => Except.ok (os.Join dir (String.mk rest))

end homedir

/-! ## `github.com/spf13/viper` -/

namespace viper

/-- The fields of `viper.Viper` that `initConfig` writes or reads. `env` maps a
lower-cased key to the environment variables bound to it, in binding order
(viper 1.8 and later; earlier releases keep the last one only); `config` is the
decoded config file. -/
structure Viper where
  configFile : String
  configPaths : List String
  configName : String
  envPrefix : String
  automaticEnvApplied : Bool
  allowEmptyEnv : Bool
  env : String → List String
  config : String → Option Value

/-- `viper.New()`: the package-level instance before `initConfig` runs. -/
def New : Viper where
  configFile := ""
  configPaths := []
  configName := "config"
  envPrefix := ""
  automaticEnvApplied := false
  allowEmptyEnv := false
  env := fun _ => []
  config := fun _ => none

/-- `viper.SetConfigFile`. -/
def SetConfigFile (v : Viper) (file : String) : Viper :=
  if file ≠ "" then { v with configFile := file } else v

/-- `viper.AddConfigPath`: an empty path is ignored, a path already listed is
not added twice. -/
def AddConfigPath (os : OS) (v : Viper) (path : String) : Viper :=
  if path ≠ "" then
    let absin := os.absPathify path
    if absin ∈ v.configPaths then v
    else { v with configPaths := v.configPaths ++ [absin] }
  else v

/-- `viper.SetConfigName`. -/
def SetConfigName (v : Viper) (name : String) : Viper :=
  if name ≠ "" then { v with configName := name, configFile := "" } else v

/-- `viper.SetEnvPrefix`. -/
def SetEnvPrefix (v : Viper) (pre : String) : Viper :=
  if pre ≠ "" then { v with envPrefix := pre } else v

/-- `viper.AutomaticEnv`. -/
def AutomaticEnv (v : Viper) : Viper := { v with automaticEnvApplied := true }

/-- `viper.ReadInConfig`: on an error the store is left as it was. -/
def ReadInConfig (os : OS) (v : Viper) : Except String Viper :=
  match os.readConfig v.configFile v.configPaths v.configName with
  | Except.error err => Except.error err
  | Except.ok config => Except.ok { v with config := config }

/-- `mergeWithEnvPrefix`. -/
def mergeWithEnvPrefix (v : Viper) (key : String) : String :=
  if v.envPrefix ≠ "" then strings.ToUpper (v.envPrefix ++ "_" ++ key)
  else strings.ToUpper key

/-- `viper.BindEnv(input...)`: binds the lower-cased first element to the
remaining ones (to the prefixed key when there is none), after the variables
already bound to it. -/
def BindEnv (v : Viper) (input : List String) : Except String Viper :=
  match input with
  | [] => Except.error "missing key to bind to"
  | k :: rest =>
    let key := strings.ToLower k
    let names := if rest = [] then [mergeWithEnvPrefix v key] else rest
    Except.ok { v with env := fun q => if q = key then v.env key ++ names else v.env q }

/-- `getEnv`: a variable that is set to the empty string counts as unset
unless `allowEmptyEnv`. -/
def getEnv (os : OS) (v : Viper) (key : String) : Option String :=
  match os.LookupEnv key with
  | some val => if v.allowEmptyEnv || val ≠ "" then some val else none
  | none => none

/-- The loop of `find` over the variables bound to a key: the first that is
set wins. -/
def firstEnv (os : OS) (v : Viper) : List String → Option String
  | [] => none
  | envkey :: rest =>
    match getEnv os v envkey with
    | some val => some val
    | none => firstEnv os v rest

/-- `find(lcaseKey, _)` for a key without the key delimiter, with no override,
bound pflag, key/value store or default registered (none is in `initConfig`):
the automatic environment variable, then the bound ones, then the config
file. -/
def find (os : OS) (v : Viper) (lcaseKey : String) : Option Value :=
  match (if v.automaticEnvApplied then getEnv os v (mergeWithEnvPrefix v lcaseKey) else none) with
  | some val => some (Value.str val)
  | none =>
    match firstEnv os v (v.env lcaseKey) with
    | some val => some (Value.str val)
    | none => v.config lcaseKey

/-- `viper.IsSet`. -/
def IsSet (os : OS) (v : Viper) (key : String) : Bool :=
  (find os v (strings.ToLower key)).isSome

/-- `viper.Get`. -/
def Get (os : OS) (v : Viper) (key : String) : Option Value :=
  find os v (strings.ToLower key)

end viper

/-! ## `github.com/spf13/pflag` -/

namespace pflag

/-- The fields of `pflag.Flag` used by `initConfig`. `Value` is the storage
behind `flag.Value` and `ValueSet` its `Set` method: given the storage and the
text, the storage it leaves and the error it returns, if any. -/
structure Flag (V : Type) where
  Name : String
  Changed : Bool
  Value : V
  ValueSet : V → String → V × Option String

/-- Rendering of `%q` in the error text (escapes are not modelled). -/
def quote (s : String) : String := "\"" ++ s ++ "\""

/-- `FlagSet.Set(flag.Name, value)` on the flag of that name: `Value.Set` runs
first; on its error the call returns before `Changed` is touched, otherwise
`Changed` becomes true. -/
def FlagSet.Set {V : Type} (flag : Flag V) (value : String) : Flag V × Option String :=
  match flag.ValueSet flag.Value value with
  | (stored, some err) =>
    ({ flag with Value := stored },
      some ("invalid argument " ++ quote value ++ " for " ++ quote ("--" ++ flag.Name) ++ " flag: " ++ err))
  | (stored, none) => ({ flag with Value := stored, Changed := true }, none)

/-- Storage of the two built-in value kinds used in the examples. -/
inductive Stored where
  | str (s : String)
  | bool (b : Bool)
  deriving DecidableEq, Repr

/-- `stringValue.Set`: never fails. -/
def stringValue.Set (_ : Stored) (val : String) : Stored × Option String :=
  (Stored.str val, none)

/-- Go `strconv.ParseBool`. -/
def ParseBool (s : String) : Option Bool :=
  if s ∈ ["1", "t", "T", "TRUE", "true", "True"] then some true
  else if s ∈ ["0", "f", "F", "FALSE", "false", "False"] then some false
  else none

/-- `boolValue.Set`: `v, err := strconv.ParseBool(s); *b = boolValue(v); return err`,
so the storage is written (with false) also when parsing fails. -/
def boolValue.Set (_ : Stored) (s : String) : Stored × Option String :=
  match ParseBool s with
  | some b => (Stored.bool b, none)
  | none => (Stored.bool false, some ("strconv.ParseBool: parsing " ++ quote s ++ ": invalid syntax"))

end pflag

/-! ## `initConfig` (root.go, lines 57-109) -/

/-- The state the visitor of lines 89-108 works on besides the visited flag:
the viper instance and the log. -/
structure Ctx where
  viper : viper.Viper
  log : List klog.Entry

/-- The function passed to `VisitAll` (lines 89-108) on one flag. -/
def visit {V : Type} (os : OS) (ctx : Ctx) (flag : pflag.Flag V) : Ctx × pflag.Flag V :=
  let viperKey := strcase.ToLowerCamel flag.Name
  let ctx1 : Ctx :=
    if strings.ContainsHyphen flag.Name then
      let envVarSuffix := strcase.ToScreamingSnake flag.Name
      let envVar := envPrefix ++ "_" ++ envVarSuffix
      match viper.BindEnv ctx.viper [viperKey, envVar] with
      | Except.error err =>
        let msg := "Failed to bind config key " ++ viperKey ++ " to env variable " ++ envVar ++ ": " ++ err ++ "\n"
        { ctx with log := klog.Warningf ctx.log msg }
      | Except.ok v => { ctx with viper := v }
    else ctx
  let viperConfigSet := viper.IsSet os ctx1.viper viperKey
  if !flag.Changed && viperConfigSet then
    let val := viper.Get os ctx1.viper viperKey
    match pflag.FlagSet.Set flag (viper.Sprintf_v val) with
    | (flag1, some err) =>
      let msg := "Failed to set flag " ++ flag.Name ++ ": " ++ err ++ "\n"
      ({ ctx1 with log := klog.Warningf ctx1.log msg }, flag1)
    | (flag1, none) => (ctx1, flag1)
  else (ctx1, flag)

/-- `FlagSet.VisitAll` with the visitor above, over the flags in the order
pflag visits them (by name, or in declaration order when sorting is off). -/
def VisitAll {V : Type} (os : OS) : Ctx → List (pflag.Flag V) → Ctx × List (pflag.Flag V)
  | ctx, [] => (ctx, [])
  | ctx, flag :: rest =>
    let r := visit os ctx flag
    let rs := VisitAll os r.1 rest
    (rs.1, r.2 :: rs.2)

/-- The Config Locator part of `initConfig` (lines 58-79); an error is the
process exit of `cobra.CheckErr`. -/
def locate (os : OS) (cfgFile : String) (v : viper.Viper) : Except String viper.Viper :=
  if cfgFile ≠ "" then
    Except.ok (viper.SetConfigFile v cfgFile)
  else
    match homedir.Dir os with
    | Except.error err => Except.error err
    | Except.ok home =>
      let configPath := os.Join home gardenHomeFolder
      match homedir.Expand os (os.Getenv envGardenHomeDir) with
      | Except.error err => Except.error err
      | Except.ok envHomeDir =>
        let v1 := viper.AddConfigPath os v envHomeDir
        let v2 := viper.AddConfigPath os v1 configPath
        if os.Getenv envConfigName ≠ "" then
          Except.ok (viper.SetConfigName v2 (os.Getenv envConfigName))
        else
          Except.ok (viper.SetConfigName v2 configName)

/-- Lines 81-87: environment mode and the read of the config file. -/
def load (os : OS) (v : viper.Viper) : Ctx :=
  let v1 := viper.AutomaticEnv (viper.SetEnvPrefix v envPrefix)
  match viper.ReadInConfig os v1 with
  | Except.error err => Ctx.mk v1 (klog.Errorf [] ("failed to read config file: " ++ err))
  | Except.ok v2 => Ctx.mk v2 []

/-- `initConfig`: `cfgFile` is the value of `--config`, `flags` the flags of
`getClientCertificateCmd` after command-line parsing. The result is the exit
error or the final viper instance, log and flags. -/
def initConfig {V : Type} (os : OS) (cfgFile : String) (flags : List (pflag.Flag V)) :
    Except String (Ctx × List (pflag.Flag V)) :=
  match locate os cfgFile viper.New with
  | Except.error err => Except.error err
  | Except.ok v => Except.ok (VisitAll os (load os v) flags)

/-! ## Derived names and worlds used in the statements -/

/-- The key under which viper looks an option up: `IsSet`, `Get` and `BindEnv`
lower-case the Lookup Key `strcase.ToLowerCamel(flag.Name)`. -/
def lookupKey (name : String) : String := strings.ToLower (strcase.ToLowerCamel name)

/-- The variable bound at lines 93-95: `GL_` and the screaming-snake name. -/
def envVarName (name : String) : String := envPrefix ++ "_" ++ strcase.ToScreamingSnake name

/-- The variable the automatic environment mode consults for an option
(`mergeWithEnvPrefix` of its key under the prefix `GL`). -/
def autoEnvName (name : String) : String := strings.ToUpper (envPrefix ++ "_" ++ lookupKey name)

/-- A variable that is unset, or set to the empty string (viper's `getEnv`
treats both alike). -/
def unsetOrEmpty (os : OS) (name : String) : Prop :=
  os.LookupEnv name = none ∨ os.LookupEnv name = some ""

/-- A flag name made of non-empty words of lowercase letters joined by single
hyphens; `inWord` says whether the current word already has a letter. -/
def kebabFrom : Bool → List Char → Bool
  | inWord, [] => inWord
  | inWord, c :: rest =>
    if strcase.isLow c then kebabFrom true rest
    else c == '-' && inWord && kebabFrom false rest

/-- See `kebabFrom`. -/
def isKebab (name : String) : Bool := kebabFrom false name.data

/-- A flag name made of non-empty words of lowercase letters and digits joined
by single hyphens: the names of `kebabFrom` with digits admitted in a word. -/
def kebabDigitsFrom : Bool → List Char → Bool
  | inWord, [] => inWord
  | inWord, c :: rest =>
    if strcase.isLow c || strcase.isNum c then kebabDigitsFrom true rest
    else c == '-' && inWord && kebabDigitsFrom false rest

/-- See `kebabDigitsFrom`. -/
def isKebabWithDigits (name : String) : Bool := kebabDigitsFrom false name.data

/-- The name upper-cased with each hyphen replaced by an underscore. -/
def upperUnderscore (name : String) : String :=
  String.mk (name.data.map (fun c => if c = '-' then '_' else c.toUpper))

/-- A world with the given environment variables and decoded config file; the
home directory is `/home/u`. -/
def worldOf (env : List (String × String)) (cfg : List (String × viper.Value)) : OS where
  LookupEnv := fun k => env.lookup k
  homeDir := Except.ok "/home/u"
  Join := fun a b => a ++ "/" ++ b
  Join_nonempty := by
    intro a b _ h
    have := congrArg String.length h
    simp only [String.length_append] at this
    have h1 : "/".length = 1 := rfl
    have h0 : "".length = 0 := rfl
    omega
  absPathify := fun p => p
  readConfig := fun _ _ _ => Except.ok (fun k => cfg.lookup k)

/-- A world whose config file cannot be read. -/
def worldNoFile (env : List (String × String)) : OS where
  LookupEnv := fun k => env.lookup k
  homeDir := Except.ok "/home/u"
  Join := fun a b => a ++ "/" ++ b
  Join_nonempty := by
    intro a b _ h
    have := congrArg String.length h
    simp only [String.length_append] at this
    have h1 : "/".length = 1 := rfl
    have h0 : "".length = 0 := rfl
    omega
  absPathify := fun p => p
  readConfig := fun _ _ _ => Except.error "Config File \"garden-login\" Not Found"

/-- A string flag (`Flags().String`), `changed` saying whether it was given on
the command line. -/
def stringFlag (name : String) (changed : Bool) (value : String) : pflag.Flag pflag.Stored :=
  pflag.Flag.mk name changed (pflag.Stored.str value) pflag.stringValue.Set

/-- A bool flag (`Flags().Bool`). -/
def boolFlag (name : String) (changed : Bool) (value : Bool) : pflag.Flag pflag.Stored :=
  pflag.Flag.mk name changed (pflag.Stored.bool value) pflag.boolValue.Set

/-- The stored values of the flags when `initConfig` returns (`none` when the
process exits). -/
def finalValues (r : Except String (Ctx × List (pflag.Flag pflag.Stored))) :
    Option (List (String × Bool × pflag.Stored)) :=
  match r with
  | Except.ok x => some (x.2.map (fun f => (f.Name, f.Changed, f.Value)))
  | Except.error _ => none

/-- The severities logged when `initConfig` returns. -/
def severities (r : Except String (Ctx × List (pflag.Flag pflag.Stored))) : Option (List klog.Severity) :=
  match r with
  | Except.ok x => some (x.1.log.map (fun e => e.severity))
  | Except.error _ => none

/-- The viper instance after lines 92-98 for a flag of the given name: a name
with a hyphen gets its variable appended to the ones bound to its key. -/
def bindFlag (v : viper.Viper) (name : String) : viper.Viper :=
  if strings.ContainsHyphen name then
    { v with env := fun q => if q = lookupKey name then v.env (lookupKey name) ++ [envVarName name]
                             else v.env q }
  else v

/-- The context in which the visitor reaches the flag that follows `pre`: the
Locator and the config read have run and the flags of `pre` have been visited. An
error is the process exit of the Locator. -/
def contextBefore {V : Type} (os : OS) (cfgFile : String) (pre : List (pflag.Flag V)) :
    Except String Ctx :=
  match locate os cfgFile viper.New with
  | Except.error err => Except.error err
  | Except.ok v => Except.ok (VisitAll os (load os v) pre).1

/-- The `String()` rendering of the two built-in value kinds. -/
def pflag.Stored.String : pflag.Stored → String
  | pflag.Stored.str s => s
  | pflag.Stored.bool b => if b then "true" else "false"

/-- The context reached before the flag that follows `pre`, for a run that does
not exit. -/
def ctxOf {V : Type} (os : OS) (cfgFile : String) (pre : List (pflag.Flag V)) : Ctx :=
  match contextBefore os cfgFile pre with
  | Except.ok c => c
  | Except.error _ => Ctx.mk viper.New []

/-- The characters of a name made of lowercase words and hyphens. -/
def kebabAlphabet : List Char :=
  ['-', 'a', 'b', 'c', 'd', 'e', 'f', 'g', 'h', 'i', 'j', 'k', 'l', 'm', 'n', 'o', 'p', 'q', 'r', 's',
   't', 'u', 'v', 'w', 'x', 'y', 'z']

/-! ## Facts about the visitor -/

section Lemmas

variable {V : Type}

theorem VisitAll_append (os : OS) (ctx : Ctx) (l1 l2 : List (pflag.Flag V)) :
    VisitAll os ctx (l1 ++ l2) =
      ((VisitAll os (VisitAll os ctx l1).1 l2).1,
        (VisitAll os ctx l1).2 ++ (VisitAll os (VisitAll os ctx l1).1 l2).2) := by
  induction l1 generalizing ctx with
  | nil => simp [VisitAll]
  | cons f rest ih => simp [VisitAll, ih]

theorem VisitAll_length (os : OS) (ctx : Ctx) (l : List (pflag.Flag V)) :
    (VisitAll os ctx l).2.length = l.length := by
  induction l generalizing ctx with
  | nil => simp [VisitAll]
  | cons f rest ih => simp [VisitAll, ih]

/-- The flag at the position of `f` after the loop is what the visitor made of
`f` in the context reached after the flags before it. -/
theorem VisitAll_at (os : OS) (ctx : Ctx) (pre post : List (pflag.Flag V))
    (f : pflag.Flag V) :
    (VisitAll os ctx (pre ++ f :: post)).2[pre.length]? =
      some (visit os (VisitAll os ctx pre).1 f).2 := by
  rw [VisitAll_append]
  simp only [VisitAll]
  rw [List.getElem?_append_right (by rw [VisitAll_length])]
  simp [VisitAll_length]

theorem BindEnv_pair (v : viper.Viper) (k e : String) :
    viper.BindEnv v [k, e] =
      Except.ok { v with env := fun q => if q = strings.ToLower k then v.env (strings.ToLower k) ++ [e]
                                         else v.env q } := by
  simp [viper.BindEnv]

/-- The visitor in terms of `bindFlag` and `find`. -/
theorem visit_eq (os : OS) (ctx : Ctx) (f : pflag.Flag V) :
    visit os ctx f =
      if (!f.Changed && (viper.find os (bindFlag ctx.viper f.Name) (lookupKey f.Name)).isSome) = true then
        match pflag.FlagSet.Set f
            (viper.Sprintf_v (viper.find os (bindFlag ctx.viper f.Name) (lookupKey f.Name))) with
        | (flag1, some err) =>
          (Ctx.mk (bindFlag ctx.viper f.Name)
            (klog.Warningf ctx.log ("Failed to set flag " ++ f.Name ++ ": " ++ err ++ "\n")), flag1)
        | (flag1, none) => (Ctx.mk (bindFlag ctx.viper f.Name) ctx.log, flag1)
      else (Ctx.mk (bindFlag ctx.viper f.Name) ctx.log, f) := by
  simp only [visit, BindEnv_pair]
  by_cases hh : strings.ContainsHyphen f.Name = true
  · simp only [hh, if_true, bindFlag, viper.IsSet, viper.Get, lookupKey, envVarName]
  · simp only [hh, bindFlag, viper.IsSet, viper.Get, lookupKey]
    rfl

theorem visit_viper (os : OS) (ctx : Ctx) (f : pflag.Flag V) :
    (visit os ctx f).1.viper = bindFlag ctx.viper f.Name := by
  rw [visit_eq]
  split
  · split <;> rfl
  · rfl

theorem visit_flag (os : OS) (ctx : Ctx) (f : pflag.Flag V) :
    (visit os ctx f).2 =
      if (!f.Changed && (viper.find os (bindFlag ctx.viper f.Name) (lookupKey f.Name)).isSome) = true then
        (pflag.FlagSet.Set f (viper.Sprintf_v (viper.find os (bindFlag ctx.viper f.Name) (lookupKey f.Name)))).1
      else f := by
  rw [visit_eq]
  split
  · split <;> simp_all
  · rfl

theorem visit_log_prefix (os : OS) (ctx : Ctx) (f : pflag.Flag V) :
    ∃ extra, (visit os ctx f).1.log = ctx.log ++ extra := by
  rw [visit_eq]
  split
  · split
    · exact ⟨_, rfl⟩
    · exact ⟨[], by simp⟩
  · exact ⟨[], by simp⟩

theorem bindFlag_config (v : viper.Viper) (name : String) :
    (bindFlag v name).config = v.config ∧ (bindFlag v name).automaticEnvApplied = v.automaticEnvApplied ∧
    (bindFlag v name).envPrefix = v.envPrefix ∧ (bindFlag v name).allowEmptyEnv = v.allowEmptyEnv := by
  unfold bindFlag
  split <;> simp

theorem bindFlag_env (v : viper.Viper) (name q : String) :
    (bindFlag v name).env q =
      if strings.ContainsHyphen name = true ∧ q = lookupKey name then v.env q ++ [envVarName name]
      else v.env q := by
  unfold bindFlag
  by_cases hh : strings.ContainsHyphen name = true
  · by_cases hq : q = lookupKey name
    · simp [hh, hq]
    · simp [hh, hq]
  · simp [hh]

/-- The variables the flags of a list bind to a key, in visiting order. -/
theorem VisitAll_viper (os : OS) (ctx : Ctx) (l : List (pflag.Flag V)) :
    (VisitAll os ctx l).1.viper.config = ctx.viper.config ∧
    (VisitAll os ctx l).1.viper.automaticEnvApplied = ctx.viper.automaticEnvApplied ∧
    (VisitAll os ctx l).1.viper.envPrefix = ctx.viper.envPrefix ∧
    (VisitAll os ctx l).1.viper.allowEmptyEnv = ctx.viper.allowEmptyEnv ∧
    ∀ q, (VisitAll os ctx l).1.viper.env q =
      ctx.viper.env q ++
        (l.filter (fun g => strings.ContainsHyphen g.Name && decide (lookupKey g.Name = q))).map
          (fun g => envVarName g.Name) := by
  induction l generalizing ctx with
  | nil => simp [VisitAll]
  | cons f rest ih =>
    simp only [VisitAll]
    obtain ⟨h1, h2, h3, h4, h5⟩ := ih (visit os ctx f).1
    obtain ⟨b1, b2, b3, b4⟩ := bindFlag_config ctx.viper f.Name
    rw [visit_viper] at h1 h2 h3 h4 h5
    refine ⟨by rw [h1, b1], by rw [h2, b2], by rw [h3, b3], by rw [h4, b4], ?_⟩
    intro q
    rw [h5 q, bindFlag_env]
    by_cases hh : strings.ContainsHyphen f.Name = true
    · by_cases hq : q = lookupKey f.Name
      · subst hq
        simp [hh, List.filter_cons]
      · have hq2 : ¬ lookupKey f.Name = q := fun h => hq h.symm
        simp [hh, hq, hq2, List.filter_cons]
    · simp [hh, List.filter_cons]

theorem getEnv_unset (os : OS) (v : viper.Viper) (hE : v.allowEmptyEnv = false)
    (n : String) (h : unsetOrEmpty os n) : viper.getEnv os v n = none := by
  unfold viper.getEnv
  rcases h with h | h <;> simp [h, hE]

theorem getEnv_set (os : OS) (v : viper.Viper) (n e : String)
    (h : os.LookupEnv n = some e) (he : e ≠ "") : viper.getEnv os v n = some e := by
  unfold viper.getEnv
  simp [h, he]

theorem getEnv_some_lookup (os : OS) (v : viper.Viper) (n e : String)
    (h : viper.getEnv os v n = some e) : os.LookupEnv n = some e := by
  unfold viper.getEnv at h
  split at h
  · split at h
    · simp_all
    · cases h
  · cases h

theorem firstEnv_unset (os : OS) (v : viper.Viper) (hE : v.allowEmptyEnv = false)
    (l : List String) (h : ∀ n ∈ l, unsetOrEmpty os n) : viper.firstEnv os v l = none := by
  induction l with
  | nil => rfl
  | cons n rest ih =>
    simp only [viper.firstEnv]
    rw [getEnv_unset os v hE n (h n (by simp))]
    exact ih (fun m hm => h m (by simp [hm]))

theorem firstEnv_append (os : OS) (v : viper.Viper) (l1 l2 : List String) :
    viper.firstEnv os v (l1 ++ l2) =
      match viper.firstEnv os v l1 with
      | some val => some val
      | none => viper.firstEnv os v l2 := by
  induction l1 with
  | nil => rfl
  | cons n rest ih =>
    simp only [List.cons_append, viper.firstEnv]
    split
    · rfl
    · exact ih

theorem firstEnv_some_lookup (os : OS) (v : viper.Viper) (l : List String) (e : String)
    (h : viper.firstEnv os v l = some e) : ∃ n, os.LookupEnv n = some e := by
  induction l with
  | nil => cases h
  | cons n rest ih =>
    simp only [viper.firstEnv] at h
    split at h
    · rename_i val hval
      cases h
      exact ⟨n, getEnv_some_lookup os v n _ hval⟩
    · exact ih h

theorem firstEnv_congr (os : OS) (v w : viper.Viper) (h : v.allowEmptyEnv = w.allowEmptyEnv)
    (l : List String) : viper.firstEnv os v l = viper.firstEnv os w l := by
  induction l with
  | nil => rfl
  | cons n rest ih => simp only [viper.firstEnv, viper.getEnv, h, ih]

theorem mergeWithEnvPrefix_GL (v : viper.Viper) (hP : v.envPrefix = envPrefix) (name : String) :
    viper.mergeWithEnvPrefix v (lookupKey name) = autoEnvName name := by
  unfold viper.mergeWithEnvPrefix autoEnvName
  rw [hP]
  simp [envPrefix]

/-- What `find` returns for an option once the automatic variable and the
variables bound earlier to its key hold nothing: its own bound variable when the
name has a hyphen, else the config file. -/
theorem find_own (os : OS) (v : viper.Viper) (hP : v.envPrefix = envPrefix)
    (hE : v.allowEmptyEnv = false) (name : String)
    (hauto : unsetOrEmpty os (autoEnvName name))
    (hprev : ∀ n ∈ v.env (lookupKey name), unsetOrEmpty os n) :
    viper.find os (bindFlag v name) (lookupKey name) =
      match (if strings.ContainsHyphen name = true then viper.getEnv os v (envVarName name) else none) with
      | some e => some (viper.Value.str e)
      | none => v.config (lookupKey name) := by
  obtain ⟨b1, b2, b3, b4⟩ := bindFlag_config v name
  have hE2 : (bindFlag v name).allowEmptyEnv = false := by rw [b4, hE]
  have hA : (if (bindFlag v name).automaticEnvApplied = true then
      viper.getEnv os (bindFlag v name) (viper.mergeWithEnvPrefix (bindFlag v name) (lookupKey name))
      else none) = none := by
    split
    · rw [mergeWithEnvPrefix_GL _ (by rw [b3, hP])]
      exact getEnv_unset os _ hE2 _ hauto
    · rfl
  unfold viper.find
  rw [hA, bindFlag_env, b1]
  simp only []
  by_cases hh : strings.ContainsHyphen name = true
  · simp only [hh, true_and, if_true]
    rw [firstEnv_append, firstEnv_congr os (bindFlag v name) v (by rw [b4])]
    rw [firstEnv_unset os v hE _ hprev]
    simp only [viper.firstEnv]
    rw [show viper.getEnv os (bindFlag v name) (envVarName name) = viper.getEnv os v (envVarName name) from by
      simp only [viper.getEnv, b4]]
    cases viper.getEnv os v (envVarName name) <;> rfl
  · simp only [hh, false_and, if_false]
    rw [firstEnv_congr os (bindFlag v name) v (by rw [b4])]
    simp only [Bool.false_eq_true, false_and, if_false]
    rw [firstEnv_unset os v hE _ hprev]

theorem locate_fields (os : OS) (cfgFile : String) (v w : viper.Viper)
    (h : locate os cfgFile v = Except.ok w) :
    w.env = v.env ∧ w.allowEmptyEnv = v.allowEmptyEnv ∧ w.config = v.config := by
  unfold locate at h
  split at h
  · cases h
    unfold viper.SetConfigFile
    split <;> simp
  · split at h
    · cases h
    · split at h
      · cases h
      · have hadd : ∀ (u : viper.Viper) (p : String),
            (viper.AddConfigPath os u p).env = u.env ∧
            (viper.AddConfigPath os u p).allowEmptyEnv = u.allowEmptyEnv ∧
            (viper.AddConfigPath os u p).config = u.config := by
          intro u p
          unfold viper.AddConfigPath
          split
          · simp only []
            split <;> simp
          · simp
        have hname : ∀ (u : viper.Viper) (n : String),
            (viper.SetConfigName u n).env = u.env ∧
            (viper.SetConfigName u n).allowEmptyEnv = u.allowEmptyEnv ∧
            (viper.SetConfigName u n).config = u.config := by
          intro u n
          unfold viper.SetConfigName
          split <;> simp
        split at h <;> cases h <;>
          simp only [hname, hadd, and_self]

theorem load_fields (os : OS) (v : viper.Viper) :
    (load os v).viper.envPrefix = envPrefix ∧ (load os v).viper.automaticEnvApplied = true ∧
    (load os v).viper.allowEmptyEnv = v.allowEmptyEnv ∧ (load os v).viper.env = v.env := by
  have hp : (envPrefix ≠ "") = True := by simp [envPrefix]
  simp only [load, viper.ReadInConfig, viper.AutomaticEnv, viper.SetEnvPrefix, hp, if_true]
  cases os.readConfig v.configFile v.configPaths v.configName <;> simp

/-- The viper instance in which the visitor reaches a flag. -/
theorem contextBefore_fields (os : OS) (cfgFile : String) (pre : List (pflag.Flag V))
    (c : Ctx) (hc : contextBefore os cfgFile pre = Except.ok c) :
    c.viper.envPrefix = envPrefix ∧ c.viper.automaticEnvApplied = true ∧
    c.viper.allowEmptyEnv = false ∧
    ∀ q, c.viper.env q =
      (pre.filter (fun g => strings.ContainsHyphen g.Name && decide (lookupKey g.Name = q))).map
        (fun g => envVarName g.Name) := by
  unfold contextBefore at hc
  split at hc
  · cases hc
  · rename_i v hv
    cases hc
    obtain ⟨l1, l2, _⟩ := locate_fields os cfgFile _ _ hv
    obtain ⟨d1, d2, d3, d4⟩ := load_fields os v
    obtain ⟨_, a2, a3, a4, a5⟩ := VisitAll_viper os (load os v) pre
    refine ⟨by rw [a3, d1], by rw [a2, d2], by rw [a4, d3, l2]; rfl, ?_⟩
    intro q
    rw [a5 q, d4, l1]
    simp [viper.New]

/-- When the Locator does not exit, `initConfig` returns, and the flag at the
position of `f` is what the visitor made of `f`. -/
theorem initConfig_at (os : OS) (cfgFile : String) (pre post : List (pflag.Flag V))
    (f : pflag.Flag V) (c : Ctx) (hc : contextBefore os cfgFile pre = Except.ok c) :
    ∃ r, initConfig os cfgFile (pre ++ f :: post) = Except.ok r ∧
      r.2[pre.length]? = some (visit os c f).2 := by
  unfold contextBefore at hc
  unfold initConfig
  split at hc
  · cases hc
  · rename_i v hv
    cases hc
    exact ⟨_, rfl, VisitAll_at os (load os v) pre post f⟩

/-- The value `find` resolves for the option visited after `pre`, when neither
the automatic variable nor a variable bound to its key by an earlier option
holds a value. -/
theorem find_at (os : OS) (cfgFile : String) (pre : List (pflag.Flag V))
    (f : pflag.Flag V) (c : Ctx) (hc : contextBefore os cfgFile pre = Except.ok c)
    (hauto : unsetOrEmpty os (autoEnvName f.Name))
    (hpre : ∀ g ∈ pre, strings.ContainsHyphen g.Name = true → lookupKey g.Name = lookupKey f.Name →
      unsetOrEmpty os (envVarName g.Name)) :
    viper.find os (bindFlag c.viper f.Name) (lookupKey f.Name) =
      match (if strings.ContainsHyphen f.Name = true then viper.getEnv os c.viper (envVarName f.Name)
             else none) with
      | some e => some (viper.Value.str e)
      | none => c.viper.config (lookupKey f.Name) := by
  obtain ⟨h1, _, h3, h4⟩ := contextBefore_fields os cfgFile pre c hc
  apply find_own os c.viper h1 h3 f.Name hauto
  intro n hn
  rw [h4] at hn
  simp only [List.mem_map, List.mem_filter, Bool.and_eq_true, decide_eq_true_eq] at hn
  obtain ⟨g, ⟨hg, hh, hk⟩, rfl⟩ := hn
  exact hpre g hg hh hk

/-- As `initConfig_at`, with the flag that follows: after `f` the loop goes on
with the next flag in the context the visitor left. -/
theorem initConfig_next (os : OS) (cfgFile : String) (pre post : List (pflag.Flag V))
    (f : pflag.Flag V) (c : Ctx) (hc : contextBefore os cfgFile pre = Except.ok c) :
    ∃ r, initConfig os cfgFile (pre ++ f :: post) = Except.ok r ∧
      r.2[pre.length]? = some (visit os c f).2 ∧
      r.2.length = (pre ++ f :: post).length ∧
      ∀ g rest, post = g :: rest →
        r.2[pre.length + 1]? = some (visit os (visit os c f).1 g).2 := by
  unfold contextBefore at hc
  unfold initConfig
  split at hc
  · cases hc
  · rename_i v hv
    cases hc
    refine ⟨_, rfl, VisitAll_at os (load os v) pre post f, VisitAll_length _ _ _, ?_⟩
    intro g rest hpost
    subst hpost
    have h := VisitAll_at os (load os v) (pre ++ [f]) rest g
    simp only [List.append_assoc, List.singleton_append, List.length_append, List.length_singleton] at h
    rw [h, VisitAll_append]
    simp [VisitAll]

theorem find_congr (os : OS) (v w : viper.Viper) (q : String)
    (h1 : v.automaticEnvApplied = w.automaticEnvApplied) (h2 : v.envPrefix = w.envPrefix)
    (h3 : v.allowEmptyEnv = w.allowEmptyEnv) (h4 : v.config = w.config) (h5 : v.env q = w.env q) :
    viper.find os v q = viper.find os w q := by
  unfold viper.find
  rw [h1, h4, h5, firstEnv_congr os v w h3]
  simp only [viper.getEnv, viper.mergeWithEnvPrefix, h2, h3]

/-- The flag the visitor returns depends on the viper instance only through its
settings, the config file and the variables bound to the key of the flag. -/
theorem visit_flag_congr (os : OS) (c d : Ctx) (f : pflag.Flag V)
    (h1 : c.viper.automaticEnvApplied = d.viper.automaticEnvApplied)
    (h2 : c.viper.envPrefix = d.viper.envPrefix)
    (h3 : c.viper.allowEmptyEnv = d.viper.allowEmptyEnv) (h4 : c.viper.config = d.viper.config)
    (h5 : c.viper.env (lookupKey f.Name) = d.viper.env (lookupKey f.Name)) :
    (visit os c f).2 = (visit os d f).2 := by
  obtain ⟨b1, b2, b3, b4⟩ := bindFlag_config c.viper f.Name
  obtain ⟨e1, e2, e3, e4⟩ := bindFlag_config d.viper f.Name
  rw [visit_flag, visit_flag]
  rw [find_congr os (bindFlag c.viper f.Name) (bindFlag d.viper f.Name) (lookupKey f.Name)
    (by rw [b2, e2, h1]) (by rw [b3, e3, h2]) (by rw [b4, e4, h3]) (by rw [b1, e1, h4])
    (by rw [bindFlag_env, bindFlag_env, h5])]

/-- With pairwise distinct keys every flag is resolved as if it were visited
alone in the starting context. -/
theorem VisitAll_alone (os : OS) (d : Ctx) (l : List (pflag.Flag V)) :
    ∀ c : Ctx, c.viper.automaticEnvApplied = d.viper.automaticEnvApplied →
      c.viper.envPrefix = d.viper.envPrefix → c.viper.allowEmptyEnv = d.viper.allowEmptyEnv →
      c.viper.config = d.viper.config →
      (∀ f ∈ l, c.viper.env (lookupKey f.Name) = d.viper.env (lookupKey f.Name)) →
      l.Pairwise (fun a b => lookupKey a.Name ≠ lookupKey b.Name) →
      (VisitAll os c l).2 = l.map (fun f => (visit os d f).2) := by
  induction l with
  | nil => intros; rfl
  | cons f rest ih =>
    intro c h1 h2 h3 h4 h5 hp
    obtain ⟨b1, b2, b3, b4⟩ := bindFlag_config c.viper f.Name
    rw [List.pairwise_cons] at hp
    simp only [VisitAll, List.map_cons]
    rw [visit_flag_congr os c d f h1 h2 h3 h4 (h5 f (by simp))]
    rw [ih (visit os c f).1 (by rw [visit_viper, b2, h1]) (by rw [visit_viper, b3, h2])
      (by rw [visit_viper, b4, h3]) (by rw [visit_viper, b1, h4]) ?_ hp.2]
    intro g hg
    rw [visit_viper, bindFlag_env]
    have hne : ¬ (strings.ContainsHyphen f.Name = true ∧ lookupKey g.Name = lookupKey f.Name) :=
      fun h => hp.1 g hg h.2.symm
    rw [if_neg hne]
    exact h5 g (by simp [hg])

theorem VisitAll_log (os : OS) (ctx : Ctx) (l : List (pflag.Flag V)) :
    ∃ extra, (VisitAll os ctx l).1.log = ctx.log ++ extra := by
  induction l generalizing ctx with
  | nil => exact ⟨[], by simp [VisitAll]⟩
  | cons f rest ih =>
    obtain ⟨e1, h1⟩ := visit_log_prefix os ctx f
    obtain ⟨e2, h2⟩ := ih (visit os ctx f).1
    exact ⟨e1 ++ e2, by simp only [VisitAll]; rw [h2, h1, List.append_assoc]⟩

/-- A value `find` returns is the value of an environment variable or the
entry of the config file. -/
theorem find_source (os : OS) (v : viper.Viper) (q : String) (val : viper.Value)
    (h : viper.find os v q = some val) :
    (∃ n e, os.LookupEnv n = some e ∧ val = viper.Value.str e) ∨ v.config q = some val := by
  unfold viper.find at h
  split at h
  · rename_i e he
    cases h
    left
    split at he
    · exact ⟨_, e, getEnv_some_lookup os v _ e he, rfl⟩
    · cases he
  · split at h
    · rename_i e he
      cases h
      left
      obtain ⟨n, hn⟩ := firstEnv_some_lookup os v _ e he
      exact ⟨n, e, hn, rfl⟩
    · right
      exact h

end Lemmas

/-! ## Facts about the name conversions -/

theorem isLow_mem (c : Char) (h : strcase.isLow c = true) : c ∈ kebabAlphabet := by
  simp only [strcase.isLow, Bool.and_eq_true, decide_eq_true_eq] at h
  obtain ⟨h1, h2⟩ := h
  have e : c = Char.ofNat c.toNat := (Char.ofNat_toNat c).symm
  have h1n : 97 ≤ c.toNat := h1
  have h2n : c.toNat ≤ 122 := h2
  generalize c.toNat = n at e h1n h2n
  subst e
  interval_cases n <;> decide

theorem kebabFrom_mem (l : List Char) : ∀ b : Bool, kebabFrom b l = true → ∀ c ∈ l, c ∈ kebabAlphabet := by
  induction l with
  | nil => intro _ _ c hc; cases hc
  | cons a rest ih =>
    intro b h c hc
    simp only [kebabFrom] at h
    by_cases ha : strcase.isLow a = true
    · rw [if_pos ha] at h
      rcases List.mem_cons.1 hc with rfl | hc
      · exact isLow_mem _ ha
      · exact ih true h c hc
    · rw [if_neg ha] at h
      simp only [Bool.and_eq_true, beq_iff_eq] at h
      rcases List.mem_cons.1 hc with rfl | hc
      · rw [h.1.1]; decide
      · exact ih false h.2 c hc

/-- One step of `delimitedLoop` on a character of the alphabet: it is neither an
upper-case letter nor a digit, its screaming form is no digit, and what is
written for it is the upper-cased letter, or the underscore for the hyphen. -/
theorem kebab_char (c : Char) (h : c ∈ kebabAlphabet) :
    strcase.isCap c = false ∧ strcase.isNum c = false ∧ strings.isSpace c = false ∧
    strcase.isNum (if strcase.isLow c = true then c.toUpper else c) = false ∧
    (if strcase.isSep (if strcase.isLow c = true then c.toUpper else c) = true then '_'
      else (if strcase.isLow c = true then c.toUpper else c))
      = (if c = '-' then '_' else c.toUpper) ∧
    (if (if c = '-' then '_' else c.toUpper) = '_' then '-'
      else (if c = '-' then '_' else c.toUpper).toLower) = c := by
  simp only [kebabAlphabet, List.mem_cons, List.mem_singleton, List.not_mem_nil, or_false] at h
  rcases h with h | h | h | h | h | h | h | h | h | h | h | h | h | h | h | h | h | h | h | h | h | h
    | h | h | h | h | h <;> subst h <;> decide

theorem dropWhile_head {α : Type} (p : α → Bool) (l : List α) (h : ∀ c ∈ l, p c = false) :
    l.dropWhile p = l := by
  cases l with
  | nil => rfl
  | cons a rest => simp [List.dropWhile, h a (by simp)]

theorem TrimSpace_kebab (l : List Char) (h : ∀ c ∈ l, c ∈ kebabAlphabet) : strings.TrimSpace l = l := by
  unfold strings.TrimSpace
  rw [dropWhile_head _ l (fun c hc => (kebab_char c (h c hc)).2.2.1)]
  rw [dropWhile_head _ l.reverse (fun c hc => (kebab_char c (h c (List.mem_reverse.1 hc))).2.2.1)]
  simp

theorem delimitedLoop_kebab (l : List Char) :
    ∀ prev : Option Char, (∀ c ∈ l, c ∈ kebabAlphabet) →
      strcase.delimitedLoop '_' true prev l = l.map (fun c => if c = '-' then '_' else c.toUpper) := by
  induction l with
  | nil => intro _ _; rfl
  | cons c rest ih =>
    intro prev h
    obtain ⟨c1, _, _, c4, c5, _⟩ := kebab_char c (h c (by simp))
    have hrest : ∀ d ∈ rest, d ∈ kebabAlphabet := fun d hd => h d (by simp [hd])
    cases rest with
    | nil =>
      simp only [strcase.delimitedLoop, List.map_cons, List.map_nil, c1, Bool.and_true,
        Bool.false_and, Bool.false_eq_true, if_false]
      rw [c5]
    | cons next tail =>
      obtain ⟨n1, n2, _, _, _, _⟩ := kebab_char next (h next (by simp))
      have ihr := ih (some c) hrest
      rw [List.map_cons, ← ihr]
      conv => lhs; unfold strcase.delimitedLoop
      simp only [c1, n1, n2, Bool.and_true, Bool.false_and, Bool.or_false, Bool.and_false,
        Bool.false_or, Bool.false_eq_true, if_false]
      simp only [c4, Bool.false_and, Bool.false_eq_true, if_false]
      rw [c5]

theorem ToScreamingSnake_kebab (name : String) (h : isKebab name = true) :
    strcase.ToScreamingSnake name = upperUnderscore name := by
  have hm := kebabFrom_mem name.data false h
  unfold strcase.ToScreamingSnake strcase.ToScreamingDelimited upperUnderscore
  rw [TrimSpace_kebab _ hm, delimitedLoop_kebab _ none hm]

theorem upperUnderscore_injective (a b : String) (ha : isKebab a = true) (hb : isKebab b = true)
    (h : upperUnderscore a = upperUnderscore b) : a = b := by
  have hma := kebabFrom_mem a.data false ha
  have hmb := kebabFrom_mem b.data false hb
  have back : ∀ l : List Char, (∀ c ∈ l, c ∈ kebabAlphabet) →
      (l.map (fun c => if c = '-' then '_' else c.toUpper)).map
        (fun x => if x = '_' then '-' else x.toLower) = l := by
    intro l hl
    induction l with
    | nil => rfl
    | cons c rest ih =>
      simp only [List.map_cons]
      rw [ih (fun d hd => hl d (by simp [hd])), (kebab_char c (hl c (by simp))).2.2.2.2.2]
  unfold upperUnderscore at h
  have hd : a.data.map (fun c => if c = '-' then '_' else c.toUpper)
      = b.data.map (fun c => if c = '-' then '_' else c.toUpper) := by
    injection h
  have := congrArg (List.map (fun x => if x = '_' then '-' else x.toLower)) hd
  rw [back _ hma, back _ hmb] at this
  exact String.ext this

/-! ## C1 -/

/-- C1 (flag always wins): an option whose `changed` is true when the visitor
reaches it is left exactly as it was, whatever the viper instance (config
file, bindings) and the environment are: this holds for the loop started in
any context, and so for `initConfig` whenever it returns. -/
theorem flag_always_wins {V : Type} (os : OS) (pre post : List (pflag.Flag V))
    (f : pflag.Flag V) (h : f.Changed = true) :
    (∀ ctx : Ctx, (VisitAll os ctx (pre ++ f :: post)).2[pre.length]? = some f) ∧
    (∀ (cfgFile : String) (r : Ctx × List (pflag.Flag V)),
      initConfig os cfgFile (pre ++ f :: post) = Except.ok r → r.2[pre.length]? = some f) := by
  have key : ∀ ctx : Ctx, (VisitAll os ctx (pre ++ f :: post)).2[pre.length]? = some f := by
    intro ctx
    rw [VisitAll_at, visit_flag]
    simp [h]
  refine ⟨key, ?_⟩
  intro cfgFile r hr
  unfold initConfig at hr
  split at hr
  · cases hr
  · cases hr
    exact key _

/-- C1 on the scenario of the specification: `--client-id=abc` on the command
line, `GL_CLIENT_ID=xyz` in the environment and `clientId: qrs` in the file. -/
theorem flag_always_wins_witness :
    (stringFlag "client-id" true "abc").Changed = true ∧
    (VisitAll (worldOf [("GL_CLIENT_ID", "xyz")] [("clientid", viper.Value.str "qrs")])
      (load (worldOf [("GL_CLIENT_ID", "xyz")] [("clientid", viper.Value.str "qrs")]) viper.New)
      [stringFlag "client-id" true "abc"]).2[0]? = some (stringFlag "client-id" true "abc") :=
  ⟨rfl, (flag_always_wins (worldOf [("GL_CLIENT_ID", "xyz")] [("clientid", viper.Value.str "qrs")])
    [] [] (stringFlag "client-id" true "abc") rfl).1 _⟩

/-! ## C4 -/

/-- C4 (default is preserved): an option that was not given as a flag, has no
value in the environment (the automatic variable `GL_<KEY>` and every variable
bound to its Lookup Key, its own included, are unset or empty) and no entry in
the config file is left untouched: the visitor returns the flag and the log as
they were, so no assignment is attempted, and the flag `initConfig` returns at
its position is the flag with its compiled default. -/
theorem default_is_preserved {V : Type} (os : OS) (cfgFile : String)
    (pre post : List (pflag.Flag V)) (f : pflag.Flag V) (c : Ctx)
    (hc : contextBefore os cfgFile pre = Except.ok c)
    (_hflag : f.Changed = false)
    (hauto : unsetOrEmpty os (autoEnvName f.Name))
    (hbound : ∀ g ∈ pre ++ [f], strings.ContainsHyphen g.Name = true →
      lookupKey g.Name = lookupKey f.Name → unsetOrEmpty os (envVarName g.Name))
    (hfile : c.viper.config (lookupKey f.Name) = none) :
    visit os c f = (Ctx.mk (bindFlag c.viper f.Name) c.log, f) ∧
    ∃ r, initConfig os cfgFile (pre ++ f :: post) = Except.ok r ∧ r.2[pre.length]? = some f := by
  have hfind : viper.find os (bindFlag c.viper f.Name) (lookupKey f.Name) = none := by
    rw [find_at os cfgFile pre f c hc hauto (fun g hg => hbound g (by simp [hg]))]
    obtain ⟨_, _, h3, _⟩ := contextBefore_fields os cfgFile pre c hc
    by_cases hh : strings.ContainsHyphen f.Name = true
    · simp only [hh, if_true]
      rw [getEnv_unset os c.viper h3 _ (hbound f (by simp) hh rfl)]
      exact hfile
    · simp only [hh, if_false]
      exact hfile
  have hv : visit os c f = (Ctx.mk (bindFlag c.viper f.Name) c.log, f) := by
    rw [visit_eq, hfind]
    simp
  refine ⟨hv, ?_⟩
  obtain ⟨r, hr, hat⟩ := initConfig_at os cfgFile pre post f c hc
  exact ⟨r, hr, by rw [hat, hv]⟩

/-- C4 on the scenario of the specification: no flag, no variable, no file
entry; the option keeps its default. -/
theorem default_is_preserved_witness :
    ∃ r, initConfig (worldOf [] []) "" [stringFlag "client-id" false "dflt"] = Except.ok r ∧
      r.2[0]? = some (stringFlag "client-id" false "dflt") :=
  (default_is_preserved (worldOf [] []) "" [] [] (stringFlag "client-id" false "dflt")
    (ctxOf (worldOf [] []) "" ([] : List (pflag.Flag pflag.Stored))) rfl rfl (Or.inl rfl)
    (fun _ _ _ _ => Or.inl rfl) rfl).2

/-! ## C3 -/

/-- C3 as stated fails for an option whose `Set` rejects the file value: a bool
flag `dry-run`, not given on the command line, no variable set, and the file
holding `dryRun: maybe`. `Set` fails, a warning is logged, and the final value
of the option is `false`, not the value of the file. -/
theorem file_value_rejected_counterexample :
    (boolFlag "dry-run" false false).Changed = false ∧
    (worldOf [] [("dryrun", viper.Value.str "maybe")]).LookupEnv (autoEnvName "dry-run") = none ∧
    (worldOf [] [("dryrun", viper.Value.str "maybe")]).LookupEnv (envVarName "dry-run") = none ∧
    (ctxOf (worldOf [] [("dryrun", viper.Value.str "maybe")]) ""
      ([] : List (pflag.Flag pflag.Stored))).viper.config (lookupKey "dry-run")
      = some (viper.Value.str "maybe") ∧
    finalValues (initConfig (worldOf [] [("dryrun", viper.Value.str "maybe")]) ""
      [boolFlag "dry-run" false false]) = some [("dry-run", false, pflag.Stored.bool false)] ∧
    pflag.Stored.String (pflag.Stored.bool false) ≠ viper.Sprintf_v (some (viper.Value.str "maybe")) := by
  decide

/-- C3, amended (file value is used): for an option that was not given as a
flag and has no value in the environment (the automatic variable `GL_<KEY>` and
every variable bound to its Lookup Key are unset or empty), a value the config
file holds under the lower-cased Lookup Key is handed, in its `%v` text, to the
flag's `Set`, and the flag `initConfig` returns at its position is the one that
call leaves; when `Set` accepts the text, the option holds the stored value and
counts as changed. -/
theorem file_value_is_assigned {V : Type} (os : OS) (cfgFile : String)
    (pre post : List (pflag.Flag V)) (f : pflag.Flag V) (c : Ctx) (val : viper.Value)
    (hc : contextBefore os cfgFile pre = Except.ok c)
    (hflag : f.Changed = false)
    (hauto : unsetOrEmpty os (autoEnvName f.Name))
    (hbound : ∀ g ∈ pre ++ [f], strings.ContainsHyphen g.Name = true →
      lookupKey g.Name = lookupKey f.Name → unsetOrEmpty os (envVarName g.Name))
    (hfile : c.viper.config (lookupKey f.Name) = some val) :
    ∃ r, initConfig os cfgFile (pre ++ f :: post) = Except.ok r ∧
      r.2[pre.length]? = some (pflag.FlagSet.Set f (viper.Sprintf_v (some val))).1 ∧
      ∀ stored, f.ValueSet f.Value (viper.Sprintf_v (some val)) = (stored, none) →
        r.2[pre.length]? = some { f with Value := stored, Changed := true } := by
  have hfind : viper.find os (bindFlag c.viper f.Name) (lookupKey f.Name) = some val := by
    rw [find_at os cfgFile pre f c hc hauto (fun g hg => hbound g (by simp [hg]))]
    obtain ⟨_, _, h3, _⟩ := contextBefore_fields os cfgFile pre c hc
    by_cases hh : strings.ContainsHyphen f.Name = true
    · simp only [hh, if_true]
      rw [getEnv_unset os c.viper h3 _ (hbound f (by simp) hh rfl)]
      exact hfile
    · simp only [hh, if_false]
      exact hfile
  obtain ⟨r, hr, hat⟩ := initConfig_at os cfgFile pre post f c hc
  have hfin : r.2[pre.length]? = some (pflag.FlagSet.Set f (viper.Sprintf_v (some val))).1 := by
    rw [hat, visit_flag, hfind]
    simp [hflag]
  refine ⟨r, hr, hfin, ?_⟩
  intro stored hs
  rw [hfin]
  simp [pflag.FlagSet.Set, hs]

/-- C3 on the scenario of the specification: no flag, no variable, the file
has `clientId: qrs`; the option ends with `qrs`. -/
theorem file_value_is_assigned_witness :
    ∃ r, initConfig (worldOf [] [("clientid", viper.Value.str "qrs")]) ""
        [stringFlag "client-id" false "dflt"] = Except.ok r ∧
      r.2[0]? = some (pflag.FlagSet.Set (stringFlag "client-id" false "dflt") "qrs").1 ∧
      ∀ stored, pflag.stringValue.Set (pflag.Stored.str "dflt") "qrs" = (stored, none) →
        r.2[0]? = some (pflag.Flag.mk "client-id" true stored pflag.stringValue.Set) :=
  file_value_is_assigned (worldOf [] [("clientid", viper.Value.str "qrs")]) "" [] []
    (stringFlag "client-id" false "dflt")
    (ctxOf (worldOf [] [("clientid", viper.Value.str "qrs")]) "" ([] : List (pflag.Flag pflag.Stored)))
    (viper.Value.str "qrs") rfl rfl (Or.inl rfl) (fun _ _ _ _ => Or.inl rfl) rfl

/-! ## C2 -/

/-- C2 as stated fails when the automatic variable of the option is set too:
option `client-id` not given as a flag, `GL_CLIENT_ID=xyz` bound for it,
`clientId: qrs` in the file, and `GL_CLIENTID=aaa`. viper consults the automatic
variable `GL_CLIENTID` before the bound one, and the option ends with `aaa`, not
with the value `xyz` of `GL_CLIENT_ID`. -/
theorem env_beats_file_counterexample :
    (stringFlag "client-id" false "dflt").Changed = false ∧
    strings.ContainsHyphen "client-id" = true ∧
    envVarName "client-id" = "GL_CLIENT_ID" ∧
    (worldOf [("GL_CLIENT_ID", "xyz"), ("GL_CLIENTID", "aaa")]
      [("clientid", viper.Value.str "qrs")]).LookupEnv "GL_CLIENT_ID" = some "xyz" ∧
    (ctxOf (worldOf [("GL_CLIENT_ID", "xyz"), ("GL_CLIENTID", "aaa")]
      [("clientid", viper.Value.str "qrs")]) ""
      ([] : List (pflag.Flag pflag.Stored))).viper.config (lookupKey "client-id")
      = some (viper.Value.str "qrs") ∧
    finalValues (initConfig (worldOf [("GL_CLIENT_ID", "xyz"), ("GL_CLIENTID", "aaa")]
      [("clientid", viper.Value.str "qrs")]) "" [stringFlag "client-id" false "dflt"])
      = some [("client-id", true, pflag.Stored.str "aaa")] := by
  decide

/-- C2, amended (environment beats file): for an option that was not given as
a flag and whose name contains a hyphen, if the bound variable
`GL_<SCREAMING_SNAKE_NAME>` holds a non-empty value, while the automatic variable
`GL_<KEY>` and the variables bound to the same Lookup Key by options visited
earlier are unset or empty, then whatever the config file holds, the value of
the bound variable is handed to the flag's `Set`, and the flag `initConfig`
returns at its position is the one that call leaves; when `Set` accepts the
value, the option holds the stored value and counts as changed. -/
theorem environment_beats_file {V : Type} (os : OS) (cfgFile : String)
    (pre post : List (pflag.Flag V)) (f : pflag.Flag V) (c : Ctx) (e : String)
    (hc : contextBefore os cfgFile pre = Except.ok c)
    (hflag : f.Changed = false)
    (hhyphen : strings.ContainsHyphen f.Name = true)
    (henv : os.LookupEnv (envVarName f.Name) = some e)
    (hne : e ≠ "")
    (hauto : unsetOrEmpty os (autoEnvName f.Name))
    (hpre : ∀ g ∈ pre, strings.ContainsHyphen g.Name = true →
      lookupKey g.Name = lookupKey f.Name → unsetOrEmpty os (envVarName g.Name)) :
    ∃ r, initConfig os cfgFile (pre ++ f :: post) = Except.ok r ∧
      r.2[pre.length]? = some (pflag.FlagSet.Set f e).1 ∧
      ∀ stored, f.ValueSet f.Value e = (stored, none) →
        r.2[pre.length]? = some { f with Value := stored, Changed := true } := by
  have hfind : viper.find os (bindFlag c.viper f.Name) (lookupKey f.Name) = some (viper.Value.str e) := by
    rw [find_at os cfgFile pre f c hc hauto hpre]
    simp only [hhyphen, if_true]
    rw [getEnv_set os c.viper _ e henv hne]
  obtain ⟨r, hr, hat⟩ := initConfig_at os cfgFile pre post f c hc
  have hfin : r.2[pre.length]? = some (pflag.FlagSet.Set f e).1 := by
    rw [hat, visit_flag, hfind]
    simp [hflag, viper.Sprintf_v]
  refine ⟨r, hr, hfin, ?_⟩
  intro stored hs
  rw [hfin]
  simp [pflag.FlagSet.Set, hs]

/-- C2 on the scenario of the specification: no flag, `GL_CLIENT_ID=xyz`, the
file has `clientId: qrs`; the option ends with `xyz`. -/
theorem environment_beats_file_witness :
    ∃ r, initConfig (worldOf [("GL_CLIENT_ID", "xyz")] [("clientid", viper.Value.str "qrs")]) ""
        [stringFlag "client-id" false "dflt"] = Except.ok r ∧
      r.2[0]? = some (pflag.FlagSet.Set (stringFlag "client-id" false "dflt") "xyz").1 ∧
      ∀ stored, pflag.stringValue.Set (pflag.Stored.str "dflt") "xyz" = (stored, none) →
        r.2[0]? = some (pflag.Flag.mk "client-id" true stored pflag.stringValue.Set) :=
  environment_beats_file (worldOf [("GL_CLIENT_ID", "xyz")] [("clientid", viper.Value.str "qrs")]) ""
    [] [] (stringFlag "client-id" false "dflt")
    (ctxOf (worldOf [("GL_CLIENT_ID", "xyz")] [("clientid", viper.Value.str "qrs")]) ""
      ([] : List (pflag.Flag pflag.Stored)))
    "xyz" rfl rfl rfl rfl (by decide) (Or.inl rfl) (fun _ hg => by cases hg)

/-! ## C9 -/

/-- C9 as stated fails for a flag whose `Set` writes its storage before it
returns the error, as the built-in bool flag does: `verify-tls` with default
`true`, not given on the command line, and `GL_VERIFY_TLS=maybe`. `Set` rejects
`maybe`, a warning is logged and `changed` stays false, but the value of the
option is now `false`, not the `true` it had before the attempt. -/
theorem rejected_value_counterexample :
    (boolFlag "verify-tls" false true).Changed = false ∧
    (boolFlag "verify-tls" false true).Value = pflag.Stored.bool true ∧
    (pflag.FlagSet.Set (boolFlag "verify-tls" false true) "maybe").2.isSome = true ∧
    finalValues (initConfig (worldOf [("GL_VERIFY_TLS", "maybe")] []) ""
      [boolFlag "verify-tls" false true]) = some [("verify-tls", false, pflag.Stored.bool false)] ∧
    severities (initConfig (worldOf [("GL_VERIFY_TLS", "maybe")] []) ""
      [boolFlag "verify-tls" false true]) = some [klog.Severity.warning] := by
  decide

/-- C9, amended (a value that cannot be assigned): for an option that was not
given as a flag and whose resolved value `val` is rejected by the flag's `Set`,
the visitor leaves `changed` false and the name as they were, the value is the
storage `Set` left behind, one warning is appended to the log, `initConfig`
returns, and the next flag is visited in the context so reached; if `Set` left
the storage as it was, the option is exactly as before. -/
theorem rejected_value_is_ignored {V : Type} (os : OS) (cfgFile : String)
    (pre post : List (pflag.Flag V)) (f : pflag.Flag V) (c : Ctx) (val : viper.Value)
    (stored : V) (err : String)
    (hc : contextBefore os cfgFile pre = Except.ok c)
    (hflag : f.Changed = false)
    (hval : viper.Get os (bindFlag c.viper f.Name) (strcase.ToLowerCamel f.Name) = some val)
    (hrej : f.ValueSet f.Value (viper.Sprintf_v (some val)) = (stored, some err)) :
    (∃ msg, visit os c f =
      (Ctx.mk (bindFlag c.viper f.Name) (c.log ++ [klog.Entry.mk klog.Severity.warning msg]),
        { f with Value := stored })) ∧
    ∃ r, initConfig os cfgFile (pre ++ f :: post) = Except.ok r ∧
      r.2[pre.length]? = some { f with Value := stored } ∧
      (stored = f.Value → r.2[pre.length]? = some f) ∧
      r.2.length = (pre ++ f :: post).length ∧
      ∀ g rest, post = g :: rest →
        r.2[pre.length + 1]? = some (visit os (visit os c f).1 g).2 := by
  have hfind : viper.find os (bindFlag c.viper f.Name) (lookupKey f.Name) = some val := hval
  have hv : ∃ msg, visit os c f =
      (Ctx.mk (bindFlag c.viper f.Name) (c.log ++ [klog.Entry.mk klog.Severity.warning msg]),
        { f with Value := stored }) := by
    have hcond : (!f.Changed && (some val).isSome) = true := by simp [hflag]
    rw [visit_eq, hfind, if_pos hcond]
    simp only [pflag.FlagSet.Set, hrej, klog.Warningf]
    exact ⟨_, rfl⟩
  refine ⟨hv, ?_⟩
  obtain ⟨msg, hmsg⟩ := hv
  obtain ⟨r, hr, hat, hlen, hnext⟩ := initConfig_next os cfgFile pre post f c hc
  refine ⟨r, hr, by rw [hat, hmsg], ?_, hlen, hnext⟩
  intro hs
  rw [hat, hmsg, hs]

/-- C9 on a bool flag with default `false` and `GL_DRY_RUN=maybe`: the value
is rejected and the option is as before. -/
theorem rejected_value_is_ignored_witness :
    ∃ r, initConfig (worldOf [("GL_DRY_RUN", "maybe")] []) ""
        [boolFlag "dry-run" false false, stringFlag "name" false "n"] = Except.ok r ∧
      r.2[0]? = some (boolFlag "dry-run" false false) ∧
      r.2.length = 2 :=
  match (rejected_value_is_ignored (worldOf [("GL_DRY_RUN", "maybe")] []) "" []
    [stringFlag "name" false "n"] (boolFlag "dry-run" false false)
    (ctxOf (worldOf [("GL_DRY_RUN", "maybe")] []) "" ([] : List (pflag.Flag pflag.Stored)))
    (viper.Value.str "maybe") (pflag.Stored.bool false)
    "strconv.ParseBool: parsing \"maybe\": invalid syntax" rfl rfl (by decide) (by decide)).2 with
  | ⟨r, h1, _, h3, h4, _⟩ => ⟨r, h1, h3 rfl, h4⟩

/-! ## C10 -/

/-- C10 as stated fails on the two flag names it mentions: with
`GL_CLIENT_ID=xyz` and no file entry, visiting `client-id` before `clientid` (the
order by name) gives `clientid` the value `xyz`, because the variable bound for
`client-id` is bound to the key `clientid` both share, while visiting `clientid`
first leaves it at its default. -/
theorem order_dependence_counterexample :
    lookupKey "client-id" = lookupKey "clientid" ∧
    finalValues (initConfig (worldOf [("GL_CLIENT_ID", "xyz")] []) ""
      [stringFlag "client-id" false "one", stringFlag "clientid" false "two"])
      = some [("client-id", true, pflag.Stored.str "xyz"), ("clientid", true, pflag.Stored.str "xyz")] ∧
    finalValues (initConfig (worldOf [("GL_CLIENT_ID", "xyz")] []) ""
      [stringFlag "clientid" false "two", stringFlag "client-id" false "one"])
      = some [("clientid", false, pflag.Stored.str "two"), ("client-id", true, pflag.Stored.str "xyz")] := by
  decide

/-- C10, amended (order independence): for options whose Lookup Keys are
pairwise distinct after lower-casing, in any context and for any two visiting
orders, every option ends as the flag the visitor yields for it alone in the
starting context, so both orders give every option the same final value (the
binding registered for one option does not reach another); the same holds for
two runs of `initConfig` on the two orders. -/
theorem order_independence {V : Type} (os : OS) (fs fs2 : List (pflag.Flag V))
    (hperm : fs.Perm fs2)
    (hkeys : fs.Pairwise (fun a b => lookupKey a.Name ≠ lookupKey b.Name)) :
    (∀ ctx : Ctx,
      (VisitAll os ctx fs).2 = fs.map (fun f => (visit os ctx f).2) ∧
      (VisitAll os ctx fs2).2 = fs2.map (fun f => (visit os ctx f).2) ∧
      (VisitAll os ctx fs).2.Perm (VisitAll os ctx fs2).2) ∧
    (∀ (cfgFile : String) (r r2 : Ctx × List (pflag.Flag V)),
      initConfig os cfgFile fs = Except.ok r → initConfig os cfgFile fs2 = Except.ok r2 →
      ∃ alone : pflag.Flag V → pflag.Flag V,
        r.2 = fs.map alone ∧ r2.2 = fs2.map alone ∧ r.2.Perm r2.2) := by
  have hkeys2 : fs2.Pairwise (fun a b => lookupKey a.Name ≠ lookupKey b.Name) :=
    (hperm.pairwise_iff (fun h => Ne.symm h)).1 hkeys
  have key : ∀ ctx : Ctx,
      (VisitAll os ctx fs).2 = fs.map (fun f => (visit os ctx f).2) ∧
      (VisitAll os ctx fs2).2 = fs2.map (fun f => (visit os ctx f).2) ∧
      (VisitAll os ctx fs).2.Perm (VisitAll os ctx fs2).2 := by
    intro ctx
    have h1 := VisitAll_alone os ctx fs ctx rfl rfl rfl rfl (fun _ _ => rfl) hkeys
    have h2 := VisitAll_alone os ctx fs2 ctx rfl rfl rfl rfl (fun _ _ => rfl) hkeys2
    refine ⟨h1, h2, ?_⟩
    rw [h1, h2]
    exact hperm.map _
  refine ⟨key, ?_⟩
  intro cfgFile r r2 hr hr2
  unfold initConfig at hr hr2
  cases hv : locate os cfgFile viper.New with
  | error e =>
    rw [hv] at hr
    cases hr
  | ok v =>
    rw [hv] at hr hr2
    cases hr
    cases hr2
    obtain ⟨h1, h2, h3⟩ := key (load os v)
    exact ⟨fun f => (visit os (load os v) f).2, h1, h2, h3⟩

/-- C10 on two options with distinct keys, in both orders. -/
theorem order_independence_witness :
    (VisitAll (worldOf [("GL_CLIENT_ID", "xyz")] []) (load (worldOf [("GL_CLIENT_ID", "xyz")] []) viper.New)
      [stringFlag "client-id" false "one", stringFlag "name" false "two"]).2.Perm
    (VisitAll (worldOf [("GL_CLIENT_ID", "xyz")] []) (load (worldOf [("GL_CLIENT_ID", "xyz")] []) viper.New)
      [stringFlag "name" false "two", stringFlag "client-id" false "one"]).2 :=
  ((order_independence (worldOf [("GL_CLIENT_ID", "xyz")] [])
    [stringFlag "client-id" false "one", stringFlag "name" false "two"]
    [stringFlag "name" false "two", stringFlag "client-id" false "one"]
    (List.Perm.swap _ _ _) (by decide)).1
    (load (worldOf [("GL_CLIENT_ID", "xyz")] []) viper.New)).2.2

/-! ## C5 -/

/-- C5 as stated fails on lowercase names with a digit in a word: a digit is
a word boundary for `ToScreamingSnake`, which sets it off with underscores. The
name `oauth2-token` gives `GL_OAUTH_2_TOKEN`, not the name upper-cased with its
hyphen replaced (`GL_OAUTH2_TOKEN`), and the two distinct names `api-v1beta` and
`api-v1-beta` both give `GL_API_V_1_BETA`. -/
theorem env_var_name_digit_counterexample :
    isKebabWithDigits "oauth2-token" = true ∧
    envVarName "oauth2-token" = "GL_OAUTH_2_TOKEN" ∧
    "GL_" ++ upperUnderscore "oauth2-token" = "GL_OAUTH2_TOKEN" ∧
    envVarName "oauth2-token" ≠ "GL_" ++ upperUnderscore "oauth2-token" ∧
    isKebabWithDigits "api-v1beta" = true ∧
    isKebabWithDigits "api-v1-beta" = true ∧
    "api-v1beta" ≠ "api-v1-beta" ∧
    envVarName "api-v1beta" = "GL_API_V_1_BETA" ∧
    envVarName "api-v1-beta" = "GL_API_V_1_BETA" := by
  decide

/-- C5, amended (environment-variable name derivation): for a flag name made of
non-empty words of lowercase letters `a`-`z` (no digit) joined by single hyphens, the variable of
lines 93-94 is `GL_` followed by the name upper-cased with each hyphen replaced
by an underscore; `envVarName` takes the name alone, and two distinct such
names give distinct variables. For every flag, the visitor appends exactly that
variable to the ones bound to the Lookup Key when the name contains a hyphen,
and leaves the bindings as they were when it does not: a binding is registered
if and only if the name contains a hyphen. -/
theorem env_var_name_derivation {V : Type} (os : OS) (ctx : Ctx) (f g : pflag.Flag V) :
    (isKebab f.Name = true → envVarName f.Name = "GL_" ++ upperUnderscore f.Name) ∧
    (isKebab f.Name = true → isKebab g.Name = true → f.Name ≠ g.Name →
      envVarName f.Name ≠ envVarName g.Name) ∧
    (strings.ContainsHyphen f.Name = true →
      (visit os ctx f).1.viper.env (lookupKey f.Name)
        = ctx.viper.env (lookupKey f.Name) ++ [envVarName f.Name]) ∧
    (strings.ContainsHyphen f.Name = false → (visit os ctx f).1.viper.env = ctx.viper.env) ∧
    ((visit os ctx f).1.viper.env ≠ ctx.viper.env ↔ strings.ContainsHyphen f.Name = true) := by
  have hname : ∀ n : String, isKebab n = true → envVarName n = "GL_" ++ upperUnderscore n := by
    intro n hn
    unfold envVarName
    rw [ToScreamingSnake_kebab n hn]
    rfl
  have hbind : strings.ContainsHyphen f.Name = true →
      (visit os ctx f).1.viper.env (lookupKey f.Name)
        = ctx.viper.env (lookupKey f.Name) ++ [envVarName f.Name] := by
    intro hh
    rw [visit_viper, bindFlag_env]
    simp [hh]
  have hnone : strings.ContainsHyphen f.Name = false → (visit os ctx f).1.viper.env = ctx.viper.env := by
    intro hh
    rw [visit_viper]
    simp [bindFlag, hh]
  refine ⟨hname f.Name, ?_, hbind, hnone, ?_⟩
  · intro hf hg hne heq
    apply hne
    rw [hname f.Name hf, hname g.Name hg] at heq
    apply upperUnderscore_injective _ _ hf hg
    have hd := congrArg String.data heq
    simp only [String.data_append] at hd
    exact String.ext (List.append_cancel_left hd)
  · constructor
    · intro hne
      by_contra hh
      exact hne (hnone (by simpa using hh))
    · intro hh heq
      have h1 := hbind hh
      rw [heq] at h1
      have := congrArg List.length h1
      simp at this

/-- C5 on `client-id`, which gets `GL_CLIENT_ID`, against the single word
`token`, which gets no binding. -/
theorem env_var_name_derivation_witness :
    envVarName "client-id" = "GL_" ++ upperUnderscore "client-id" ∧
    "GL_" ++ upperUnderscore "client-id" = "GL_CLIENT_ID" ∧
    envVarName "client-id" ≠ envVarName "token" ∧
    (visit (worldOf [] []) (Ctx.mk viper.New []) (stringFlag "client-id" false "")).1.viper.env
        (lookupKey "client-id") = viper.New.env (lookupKey "client-id") ++ [envVarName "client-id"] ∧
    (visit (worldOf [] []) (Ctx.mk viper.New []) (stringFlag "token" false "")).1.viper.env
      = viper.New.env :=
  match env_var_name_derivation (worldOf [] []) (Ctx.mk viper.New []) (stringFlag "client-id" false "")
      (stringFlag "token" false ""),
    env_var_name_derivation (worldOf [] []) (Ctx.mk viper.New []) (stringFlag "token" false "")
      (stringFlag "client-id" false "") with
  | ⟨h1, h2, h3, _, _⟩, ⟨_, _, _, k4, _⟩ =>
    ⟨h1 (by decide), by decide, h2 (by decide) (by decide) (by decide), h3 (by decide), k4 (by decide)⟩

/-! ## C6 -/

/-- C6 (config-file discovery): a non-empty `--config` value becomes the
config file of the viper instance as it is, with an empty search path, in every
world (home directory, `GL_HOME` and `GL_CONFIG_NAME` play no part), and the store
is what reading that one location gives. With an empty
`--config`, a home directory `home` and `GL_HOME` expanding to `e`, no config
file is set and the search path is: the normalised `e` first and then the
normalised default directory `Join home ".garden"` (listed once when both
normalise to the same path) when `e` is non-empty, and the default directory
alone when `e` is empty, which is the case when `GL_HOME` is unset or empty. -/
theorem config_discovery (os : OS) (cfgFile home e : String) :
    (cfgFile ≠ "" →
      locate os cfgFile viper.New = Except.ok { viper.New with configFile := cfgFile } ∧
      ({ viper.New with configFile := cfgFile } : viper.Viper).configPaths = [] ∧
      ∀ store, os.readConfig cfgFile [] viper.New.configName = Except.ok store →
        (load os { viper.New with configFile := cfgFile }).viper.config = store) ∧
    (cfgFile = "" → homedir.Dir os = Except.ok home →
      homedir.Expand os (os.Getenv envGardenHomeDir) = Except.ok e →
      ∃ v, locate os cfgFile viper.New = Except.ok v ∧ v.configFile = "" ∧
        (e ≠ "" → v.configPaths = os.absPathify e ::
          (if os.absPathify (os.Join home gardenHomeFolder) = os.absPathify e then []
           else [os.absPathify (os.Join home gardenHomeFolder)])) ∧
        (e = "" → v.configPaths = [os.absPathify (os.Join home gardenHomeFolder)])) ∧
    (os.Getenv envGardenHomeDir = "" →
      homedir.Expand os (os.Getenv envGardenHomeDir) = Except.ok "") := by
  refine ⟨?_, ?_, ?_⟩
  · intro h
    refine ⟨?_, rfl, ?_⟩
    · simp [locate, h, viper.SetConfigFile]
    · intro store hstore
      have hp : (envPrefix ≠ "") = True := by simp [envPrefix]
      have hpaths : viper.New.configPaths = [] := rfl
      simp only [load, viper.ReadInConfig, viper.AutomaticEnv, viper.SetEnvPrefix, hp, if_true,
        hpaths, hstore]
  · intro h hhome hexp
    have hJ : os.Join home gardenHomeFolder ≠ "" :=
      os.Join_nonempty home gardenHomeFolder (by decide)
    have hname : ∀ (u : viper.Viper) (n : String),
        (viper.SetConfigName u n).configPaths = u.configPaths ∧
        ((viper.SetConfigName u n).configFile = "" ∨
          (viper.SetConfigName u n).configFile = u.configFile) := by
      intro u n
      unfold viper.SetConfigName
      split <;> simp
    have hpaths : (viper.AddConfigPath os (viper.AddConfigPath os viper.New e)
        (os.Join home gardenHomeFolder)).configPaths =
        (if e ≠ "" then os.absPathify e ::
          (if os.absPathify (os.Join home gardenHomeFolder) = os.absPathify e then []
           else [os.absPathify (os.Join home gardenHomeFolder)])
         else [os.absPathify (os.Join home gardenHomeFolder)]) := by
      by_cases he : e = ""
      · simp [viper.AddConfigPath, he, hJ, viper.New]
      · by_cases hsame : os.absPathify (os.Join home gardenHomeFolder) = os.absPathify e
        · simp [viper.AddConfigPath, he, hJ, viper.New, hsame]
        · simp [viper.AddConfigPath, he, hJ, viper.New, hsame]
    have hadd : ∀ (u : viper.Viper) (p : String),
        (viper.AddConfigPath os u p).configFile = u.configFile := by
      intro u p
      unfold viper.AddConfigPath
      split
      · simp only []
        split <;> rfl
      · rfl
    have hfile : (viper.AddConfigPath os (viper.AddConfigPath os viper.New e)
        (os.Join home gardenHomeFolder)).configFile = "" := by
      rw [hadd, hadd]
      rfl
    subst h
    unfold locate
    rw [hhome, hexp]
    simp only [ne_eq, not_true_eq_false, if_false]
    split
    · refine ⟨_, rfl, ?_, ?_, ?_⟩
      · rcases (hname _ _).2 with h | h
        · exact h
        · rw [h, hfile]
      · intro he
        rw [(hname _ _).1, hpaths, if_pos he]
      · intro he
        rw [(hname _ _).1, hpaths]
        simp [he]
    · refine ⟨_, rfl, ?_, ?_, ?_⟩
      · rcases (hname _ _).2 with h | h
        · exact h
        · rw [h, hfile]
      · intro he
        rw [(hname _ _).1, hpaths, if_pos he]
      · intro he
        rw [(hname _ _).1, hpaths]
        simp [he]
  · intro h
    rw [h]
    rfl

/-- C6 on three runs: `--config=/etc/gl.yaml`; `GL_HOME=/opt/gl`; `GL_HOME`
unset. -/
theorem config_discovery_witness :
    locate (worldOf [("GL_HOME", "/opt/gl")] []) "/etc/gl.yaml" viper.New
      = Except.ok { viper.New with configFile := "/etc/gl.yaml" } ∧
    (∃ v, locate (worldOf [("GL_HOME", "/opt/gl")] []) "" viper.New = Except.ok v ∧
      v.configPaths = ["/opt/gl", "/home/u/.garden"]) ∧
    (∃ v, locate (worldOf [] []) "" viper.New = Except.ok v ∧
      v.configPaths = ["/home/u/.garden"]) :=
  ⟨((config_discovery (worldOf [("GL_HOME", "/opt/gl")] []) "/etc/gl.yaml" "" "").1 (by decide)).1,
   match (config_discovery (worldOf [("GL_HOME", "/opt/gl")] []) "" "/home/u" "/opt/gl").2.1 rfl rfl rfl with
   | ⟨v, h1, _, h3, _⟩ => ⟨v, h1, h3 (by decide)⟩,
   match (config_discovery (worldOf [] []) "" "/home/u" "").2.1 rfl rfl rfl with
   | ⟨v, h1, _, _, h4⟩ => ⟨v, h1, h4 rfl⟩⟩

/-! ## C7 -/

/-- C7 (early termination): `initConfig` ends in the process exit if and only
if `--config` is empty and the home directory cannot be determined or the value
of `GL_HOME` cannot be expanded. In every other case it returns, whatever the
read of the config file, the bindings and the assignments to the flags produce
(these only add log lines), with every flag of the set visited: the flag at each
position is what the visitor made of it in the context reached after the flags
before it. -/
theorem early_termination_iff {V : Type} (os : OS) (cfgFile : String)
    (flags : List (pflag.Flag V)) :
    ((∃ err, initConfig os cfgFile flags = Except.error err) ↔
      cfgFile = "" ∧ ((∃ err, homedir.Dir os = Except.error err) ∨
        (∃ err, homedir.Expand os (os.Getenv envGardenHomeDir) = Except.error err))) ∧
    ((∃ r, initConfig os cfgFile flags = Except.ok r) ∨
      (∃ err, initConfig os cfgFile flags = Except.error err)) ∧
    (∀ r, initConfig os cfgFile flags = Except.ok r →
      r.2.length = flags.length ∧
      ∀ pre f post, flags = pre ++ f :: post →
        ∃ c, contextBefore os cfgFile pre = Except.ok c ∧
          r.2[pre.length]? = some (visit os c f).2) := by
  have hloc : (∃ err, locate os cfgFile viper.New = Except.error err) ↔
      cfgFile = "" ∧ ((∃ err, homedir.Dir os = Except.error err) ∨
        (∃ err, homedir.Expand os (os.Getenv envGardenHomeDir) = Except.error err)) := by
    unfold locate
    by_cases hcfg : cfgFile = ""
    · simp only [hcfg, ne_eq, not_true_eq_false, if_false, true_and]
      cases hd : homedir.Dir os with
      | error e1 => simp
      | ok home =>
        cases hx : homedir.Expand os (os.Getenv envGardenHomeDir) with
        | error e2 => simp
        | ok e =>
          simp only [reduceCtorEq, exists_false, or_self, iff_false, not_exists]
          intro err
          split <;> simp
    · simp [hcfg]
  refine ⟨?_, ?_, ?_⟩
  · rw [← hloc]
    unfold initConfig
    cases locate os cfgFile viper.New with
    | error e1 => simp
    | ok v => simp
  · unfold initConfig
    cases locate os cfgFile viper.New with
    | error e1 => exact Or.inr ⟨e1, rfl⟩
    | ok v => exact Or.inl ⟨_, rfl⟩
  · intro r hr
    unfold initConfig at hr
    split at hr
    · cases hr
    · rename_i v hv
      cases hr
      refine ⟨VisitAll_length _ _ _, ?_⟩
      intro pre f post hfl
      subst hfl
      refine ⟨(VisitAll os (load os v) pre).1, ?_, VisitAll_at os (load os v) pre post f⟩
      simp only [contextBefore, hv]

/-! ## C8 -/

/-- C8 as stated fails on the severity: when the config file cannot be read
the one line logged by `initConfig` is written with `klog.Errorf`, that is at
error level, and no warning-level line is logged. -/
theorem config_read_failure_counterexample :
    severities (initConfig (worldNoFile []) "" [stringFlag "client-id" false "dflt"])
      = some [klog.Severity.error] ∧
    klog.Severity.warning ∉ [klog.Severity.error] := by
  decide

/-- C8, amended (a failed config-file read): when the Locator returns and the
read of the config file fails, `initConfig` logs the failure as its first line,
at error level, returns, holds no config-file entry, and leaves every option
either untouched or as the flag's `Set` leaves it on the value of an
environment variable. -/
theorem config_read_failure_is_logged {V : Type} (os : OS) (cfgFile : String)
    (flags : List (pflag.Flag V)) (v : viper.Viper) (err : String)
    (hv : locate os cfgFile viper.New = Except.ok v)
    (hread : viper.ReadInConfig os (viper.AutomaticEnv (viper.SetEnvPrefix v envPrefix))
      = Except.error err) :
    ∃ r, initConfig os cfgFile flags = Except.ok r ∧
      (∃ rest, r.1.log =
        klog.Entry.mk klog.Severity.error ("failed to read config file: " ++ err) :: rest) ∧
      (∀ q, r.1.viper.config q = none) ∧
      r.2.length = flags.length ∧
      ∀ pre f post, flags = pre ++ f :: post →
        (r.2[pre.length]? = some f ∨
          ∃ n e, os.LookupEnv n = some e ∧ r.2[pre.length]? = some (pflag.FlagSet.Set f e).1) := by
  have hload : load os v = Ctx.mk (viper.AutomaticEnv (viper.SetEnvPrefix v envPrefix))
      (klog.Errorf [] ("failed to read config file: " ++ err)) := by
    simp only [load, hread]
  have hcfg0 : (load os v).viper.config = fun _ => none := by
    rw [hload]
    obtain ⟨_, _, l3⟩ := locate_fields os cfgFile _ _ hv
    have hp : (envPrefix ≠ "") = True := by simp [envPrefix]
    simp only [viper.AutomaticEnv, viper.SetEnvPrefix, hp, if_true, l3]
    rfl
  refine ⟨VisitAll os (load os v) flags, by simp only [initConfig, hv], ?_, ?_, VisitAll_length _ _ _, ?_⟩
  · obtain ⟨extra, hex⟩ := VisitAll_log os (load os v) flags
    rw [hex, hload]
    exact ⟨extra, rfl⟩
  · intro q
    rw [(VisitAll_viper os (load os v) flags).1, hcfg0]
  · intro pre f post hfl
    subst hfl
    rw [VisitAll_at, visit_flag]
    split
    · rename_i hcond
      right
      simp only [Bool.and_eq_true, Option.isSome_iff_exists] at hcond
      obtain ⟨val, hval⟩ := hcond.2
      rcases find_source os _ _ val hval with ⟨n, e, hn, he⟩ | hc
      · refine ⟨n, e, hn, ?_⟩
        rw [hval, he]
        rfl
      · rw [(bindFlag_config _ _).1, (VisitAll_viper os (load os v) pre).1, hcfg0] at hc
        cases hc
    · left
      rfl

/-- C8 on a run without a config file and with `GL_CLIENT_ID=xyz`. -/
theorem config_read_failure_is_logged_witness :
    ∃ r, initConfig (worldNoFile [("GL_CLIENT_ID", "xyz")]) "" [stringFlag "client-id" false "dflt"]
        = Except.ok r ∧
      (∃ rest, r.1.log = klog.Entry.mk klog.Severity.error
        ("failed to read config file: " ++ "Config File \"garden-login\" Not Found") :: rest) ∧
      r.2.length = 1 :=
  match config_read_failure_is_logged (worldNoFile [("GL_CLIENT_ID", "xyz")]) ""
    [stringFlag "client-id" false "dflt"]
    (viper.SetConfigName (viper.AddConfigPath (worldNoFile [("GL_CLIENT_ID", "xyz")]) viper.New
      "/home/u/.garden") configName)
    "Config File \"garden-login\" Not Found" rfl rfl with
  | ⟨r, h1, h2, _, h4, _⟩ => ⟨r, h1, h2, h4⟩

end cmd
